import Mathlib

/-!
Shallow embedding of the turn/combat core of the zombicide repository
(src/core/actions.py, src/core/entities.py, src/core/turn_order.py,
src/core/turn_manager.py), together with theorems settling the spec claims.

Python objects are modelled as immutable structures; in-place mutation
becomes explicit state passing.  Operations that can raise an exception in
Python (division by zero, attribute errors) return `Option`, with `none`
standing for the raised exception.
-/

set_option linter.unusedVariables false

namespace Zombicide

/-! ## src/core/actions.py -/

/-- `ActionType` enum: MOVE = "move", ATTACK = "attack". -/
inductive ActionType where
  | MOVE
  | ATTACK
deriving DecidableEq, Repr

/-- `Direction` enum of (row-delta, col-delta) offsets.  Enumeration order in
Python iteration is the declaration order UP, DOWN, LEFT, RIGHT. -/
inductive Direction where
  | UP
  | DOWN
  | LEFT
  | RIGHT
deriving DecidableEq, Repr

/-- `Direction.get_offset`: the (row-delta, col-delta) value of the enum member. -/
def Direction.get_offset : Direction → Int × Int
  | .UP => (-1, 0)
  | .DOWN => (1, 0)
  | .LEFT => (0, -1)
  | .RIGHT => (0, 1)

/-- Python's `for direction in Direction` iterates members in declaration
order. -/
def Direction.members : List Direction := [.UP, .DOWN, .LEFT, .RIGHT]

/-- `Position` dataclass: integer (row, col).  Equality is structural
(`__eq__` compares row and col). -/
structure Position where
  row : Int
  col : Int
deriving DecidableEq, Repr

/-- `Position.__add__(direction)`: translate by the direction's offset. -/
def Position.add (p : Position) (d : Direction) : Position :=
  { row := p.row + d.get_offset.1, col := p.col + d.get_offset.2 }

/-- `Position.is_valid(grid_size=3)`: within grid bounds. -/
def Position.is_valid (p : Position) (grid_size : Int := 3) : Bool :=
  decide (0 ≤ p.row ∧ p.row < grid_size ∧ 0 ≤ p.col ∧ p.col < grid_size)

/-- `Position.distance_to`: Manhattan distance (a non-negative integer). -/
def Position.distance_to (p other : Position) : Nat :=
  (p.row - other.row).natAbs + (p.col - other.col).natAbs

/-- `Position.is_adjacent`: Manhattan distance exactly 1. -/
def Position.is_adjacent (p other : Position) : Bool :=
  p.distance_to other == 1

/-- `Action` dataclass: a move/attack intent.  Optional fields default to
`None` in the source. -/
structure Action where
  action_type : ActionType
  actor_id : String
  target_position : Option Position := none
  target_id : Option String := none
  direction : Option Direction := none
deriving DecidableEq, Repr

/-- `ActionResult`: success flag, message, ordered effect tags. -/
structure ActionResult where
  success : Bool
  message : String := ""
  effects : List String := []
deriving DecidableEq, Repr

/-- `ActionValidator.validate_move`: the translated position must be inside
the grid. -/
def ActionValidator.validate_move (actor_pos : Position) (direction : Direction)
    (grid_size : Int := 3) : Bool :=
  (actor_pos.add direction).is_valid grid_size

/-- `ActionValidator.validate_attack`: actor and target must occupy the same
zone (exact position equality). -/
def ActionValidator.validate_attack (actor_pos target_pos : Position) : Bool :=
  actor_pos == target_pos

/-! ## src/core/entities.py — Survivor and Zombie

The Python class hierarchy `Entity` with subclasses `Survivor` and `Zombie`
is modelled as two structures sharing the `Entity.__init__` fields plus a
sum type `EntityRef` for code that handles either. -/

/-- `Survivor`: Entity fields plus wounds/exp/level/equipment from
`survivor_data`.  `max_actions = 3`. -/
structure Survivor where
  id : String
  name : String
  position : Position
  alive : Bool := true
  actions_remaining : Nat := 0
  max_actions : Nat := 3
  wounds : Nat := 0
  exp : Int := 0
  level : String := "blue"
  equipment : List (String × String) := []
deriving DecidableEq, Repr

/-- `Zombie`: Entity fields only.  `max_actions = 1`. -/
structure Zombie where
  id : String
  name : String
  position : Position
  alive : Bool := true
  actions_remaining : Nat := 0
  max_actions : Nat := 1
deriving DecidableEq, Repr

/-- A reference to either kind of entity, for the polymorphic code paths. -/
inductive EntityRef where
  | surv (s : Survivor)
  | zomb (z : Zombie)
deriving DecidableEq, Repr

def EntityRef.id : EntityRef → String
  | .surv s => s.id
  | .zomb z => z.id

def EntityRef.name : EntityRef → String
  | .surv s => s.name
  | .zomb z => z.name

def EntityRef.position : EntityRef → Position
  | .surv s => s.position
  | .zomb z => z.position

def EntityRef.alive : EntityRef → Bool
  | .surv s => s.alive
  | .zomb z => z.alive

def EntityRef.actions_remaining : EntityRef → Nat
  | .surv s => s.actions_remaining
  | .zomb z => z.actions_remaining

/-- `Entity.can_act`: alive with at least one action point left. -/
def EntityRef.can_act (e : EntityRef) : Bool :=
  e.alive && e.actions_remaining > 0

/-- `Entity.consume_action` on a Survivor: decrement if positive. -/
def Survivor.consume_action (s : Survivor) : Survivor :=
  if s.actions_remaining > 0 then
    { s with actions_remaining := s.actions_remaining - 1 }
  else s

/-- `Entity.consume_action` on a Zombie: decrement if positive. -/
def Zombie.consume_action (z : Zombie) : Zombie :=
  if z.actions_remaining > 0 then
    { z with actions_remaining := z.actions_remaining - 1 }
  else z

/-- `Entity.start_turn` on a Survivor: restore the full action budget. -/
def Survivor.start_turn (s : Survivor) : Survivor :=
  { s with actions_remaining := s.max_actions }

/-- `Entity.start_turn` on a Zombie: restore the full action budget. -/
def Zombie.start_turn (z : Zombie) : Zombie :=
  { z with actions_remaining := z.max_actions }

/-- `Survivor.take_damage`: increment wounds; at 2 or more wounds the
survivor dies.  Returns (died, updated survivor), `died` being the Python
return value. -/
def Survivor.take_damage (s : Survivor) : Bool × Survivor :=
  let s1 : Survivor := { s with wounds := s.wounds + 1 }
  if s1.wounds ≥ 2 then (true, { s1 with alive := false })
  else (false, s1)

/-! ## src/core/entities.py — GameState -/

/-- `GameState`: the two entity collections plus the grid size (3). -/
structure GameState where
  survivors : List Survivor
  zombies : List Zombie
  grid_size : Int := 3
deriving DecidableEq, Repr

/-- `GameState.add_survivor`: append to the survivor list. -/
def GameState.add_survivor (gs : GameState) (s : Survivor) : GameState :=
  { gs with survivors := gs.survivors ++ [s] }

/-- `GameState.add_zombie`: append to the zombie list. -/
def GameState.add_zombie (gs : GameState) (z : Zombie) : GameState :=
  { gs with zombies := gs.zombies ++ [z] }

/-- `GameState.get_entity_by_id`: linear scan, survivors first, then
zombies; first match wins. -/
def GameState.get_entity_by_id (gs : GameState) (entity_id : String) :
    Option EntityRef :=
  match gs.survivors.find? (fun s => s.id == entity_id) with
  | some s => some (.surv s)
  | none =>
    match gs.zombies.find? (fun z => z.id == entity_id) with
    | some z => some (.zomb z)
    | none => none

/-- `GameState.get_entities_at_position`: all living entities at the given
position, survivors first, in list order. -/
def GameState.get_entities_at_position (gs : GameState) (position : Position) :
    List EntityRef :=
  (gs.survivors.filter (fun s => s.position == position && s.alive)).map .surv
    ++ (gs.zombies.filter (fun z => z.position == position && z.alive)).map .zomb

/-- Apply `f` to the first survivor in the list whose id matches; Python's
mutation of the object returned by `get_entity_by_id` touches exactly that
element. -/
def updateFirstSurvivor (l : List Survivor) (entity_id : String)
    (f : Survivor → Survivor) : List Survivor :=
  match l with
  | [] => []
  | s :: rest =>
    if s.id == entity_id then f s :: rest
    else s :: updateFirstSurvivor rest entity_id f

/-- Apply `f` to the first zombie in the list whose id matches. -/
def updateFirstZombie (l : List Zombie) (entity_id : String)
    (f : Zombie → Zombie) : List Zombie :=
  match l with
  | [] => []
  | z :: rest =>
    if z.id == entity_id then f z :: rest
    else z :: updateFirstZombie rest entity_id f

/-- Update the entity `get_entity_by_id` would resolve (survivors shadow
zombies with the same id, matching the lookup order). -/
def GameState.update_entity (gs : GameState) (entity_id : String)
    (fs : Survivor → Survivor) (fz : Zombie → Zombie) : GameState :=
  if gs.survivors.any (fun s => s.id == entity_id) then
    { gs with survivors := updateFirstSurvivor gs.survivors entity_id fs }
  else
    { gs with zombies := updateFirstZombie gs.zombies entity_id fz }

/-- `actor.consume_action()` performed through the game state. -/
def GameState.consume_entity_action (gs : GameState) (entity_id : String) :
    GameState :=
  gs.update_entity entity_id Survivor.consume_action Zombie.consume_action

/-- `GameState._execute_move`: re-validate the direction against the grid,
then assign `actor.position = action.target_position` (the unvalidated
field) and consume one action point.

`action.direction = None` raises `AttributeError` inside `validate_move` in
the source, and a successful move with `action.target_position = None`
writes a non-`Position` value into the `position` field; both leave the
typed model, so the embedding returns `none` for them. -/
def GameState.execute_move (gs : GameState) (actor : EntityRef)
    (action : Action) : Option (ActionResult × GameState) :=
  match action.direction with
  | none => none
  | some dir =>
    if ¬ ActionValidator.validate_move actor.position dir gs.grid_size then
      some (⟨false, "Invalid move for " ++ actor.name, []⟩, gs)
    else
      match action.target_position with
      | none => none
      | some tp =>
        let old_position := actor.position
        let gs1 := gs.update_entity action.actor_id
          (fun s => Survivor.consume_action { s with position := tp })
          (fun z => Zombie.consume_action { z with position := tp })
        some (⟨true,
          actor.name ++ " moved from (" ++ toString old_position.row ++ ","
            ++ toString old_position.col ++ ") to (" ++ toString tp.row ++ ","
            ++ toString tp.col ++ ")",
          ["position_changed:" ++ actor.id ++ ":" ++ toString tp.row ++ ","
            ++ toString tp.col]⟩, gs1)

/-- `GameState._execute_attack`: resolve the target by id (no aliveness
check in the source), require co-location, then consume the attacker's
action point and apply damage (Survivor target) or an outright kill (Zombie
target).  A `target_id` of `None` matches no entity id, so the source
returns the "not found" failure for it. -/
def GameState.execute_attack (gs : GameState) (actor : EntityRef)
    (action : Action) : Option (ActionResult × GameState) :=
  let target? := match action.target_id with
    | none => none
    | some tid => gs.get_entity_by_id tid
  match target? with
  | none =>
    some (⟨false, "Target " ++ action.target_id.getD "None" ++ " not found",
      []⟩, gs)
  | some target =>
    if ¬ ActionValidator.validate_attack actor.position target.position then
      some (⟨false, actor.name ++ " cannot attack " ++ target.name
        ++ " - not in same zone", []⟩, gs)
    else
      let gs1 := gs.consume_entity_action action.actor_id
      match target with
      | .surv s =>
        let died := (s.take_damage).1
        let gs2 := { gs1 with survivors :=
          (updateFirstSurvivor gs1.survivors s.id (fun t => (t.take_damage).2)) }
        let message := actor.name ++ " attacks " ++ s.name ++ " - " ++ s.name
          ++ " takes 1 wound" ++ (if died then " and dies!" else "")
        let effects :=
          (if died then ["entity_died:" ++ s.id] else [])
            ++ ["damage_taken:" ++ s.id ++ ":1"]
        some (⟨true, message, effects⟩, gs2)
      | .zomb z =>
        let gs2 := { gs1 with zombies :=
          (updateFirstZombie gs1.zombies z.id (fun t => { t with alive := false })) }
        some (⟨true, actor.name ++ " attacks " ++ z.name ++ " - " ++ z.name
          ++ " is eliminated!", ["entity_died:" ++ z.id]⟩, gs2)

/-- `GameState.execute_action`: resolve the actor, require `can_act`, then
dispatch on the action type. -/
def GameState.execute_action (gs : GameState) (action : Action) :
    Option (ActionResult × GameState) :=
  match gs.get_entity_by_id action.actor_id with
  | none =>
    some (⟨false, "Actor " ++ action.actor_id ++ " cannot act", []⟩, gs)
  | some actor =>
    if ¬ actor.can_act then
      some (⟨false, "Actor " ++ action.actor_id ++ " cannot act", []⟩, gs)
    else
      match action.action_type with
      | .MOVE => gs.execute_move actor action
      | .ATTACK => gs.execute_attack actor action

/-- `GameState.start_entity_turns` for the Survivor type. -/
def GameState.start_survivor_turns (gs : GameState) : GameState :=
  { gs with survivors := (gs.survivors.map
      (fun s => if s.alive then s.start_turn else s)) }

/-- `GameState.start_entity_turns` for the Zombie type. -/
def GameState.start_zombie_turns (gs : GameState) : GameState :=
  { gs with zombies := (gs.zombies.map
      (fun z => if z.alive then z.start_turn else z)) }

/-! ## src/core/entities.py — Zombie.decide_action -/

/-- The `closest_survivor` loop of `Zombie.decide_action`: strict-improvement
scan over the survivor list in insertion order, skipping dead survivors. -/
def Zombie.closest_survivor (z : Zombie) (survivors : List Survivor) :
    Option Survivor :=
  survivors.foldl
    (fun best s =>
      if s.alive then
        match best with
        | none => some s
        | some b =>
          if z.position.distance_to s.position < z.position.distance_to b.position
          then some s else best
      else best)
    none

/-- The `best_direction` loop of `Zombie.decide_action`: scan the four
directions in enumeration order, keeping the legal destination that strictly
improves on the running best distance (seeded with the current distance to
the target).  `validate_move` is called with its default grid size, as in
the source.  Returns (best_direction, best_distance). -/
def Zombie.best_direction (z : Zombie) (target : Position) :
    Option Direction × Nat :=
  Direction.members.foldl
    (fun acc dir =>
      if ActionValidator.validate_move z.position dir then
        let d := (z.position.add dir).distance_to target
        if d < acc.2 then (some dir, d) else acc
      else acc)
    (none, z.position.distance_to target)

/-- `Zombie.decide_action`: `None` when `can_act()` fails; attack the first
living survivor sharing the zone; otherwise move toward the closest living
survivor when some legal direction strictly improves the distance. -/
def Zombie.decide_action (z : Zombie) (gs : GameState) : Option Action :=
  if ¬ (EntityRef.zomb z).can_act then none
  else
    match gs.survivors.filter (fun s => s.position == z.position && s.alive) with
    | t :: _ =>
      some { action_type := .ATTACK, actor_id := z.id,
             target_position := some t.position, target_id := some t.id }
    | [] =>
      match z.closest_survivor gs.survivors with
      | none => none
      | some cs =>
        match (z.best_direction cs.position).1 with
        | none => none
        | some bd =>
          some { action_type := .MOVE, actor_id := z.id,
                 target_position := some (z.position.add bd),
                 direction := some bd }

/-- The specification's description of `Zombie.decide_action` (claim C6):
same attack clause, but the move clause picks the FIRST direction (in
enumeration order) whose legal destination strictly reduces the Manhattan
distance to the closest living survivor. -/
def Zombie.decide_action_first_improving (z : Zombie) (gs : GameState) :
    Option Action :=
  if ¬ (EntityRef.zomb z).can_act then none
  else
    match gs.survivors.filter (fun s => s.position == z.position && s.alive) with
    | t :: _ =>
      some { action_type := .ATTACK, actor_id := z.id,
             target_position := some t.position, target_id := some t.id }
    | [] =>
      match z.closest_survivor gs.survivors with
      | none => none
      | some cs =>
        match Direction.members.find?
            (fun d => ActionValidator.validate_move z.position d
              && (z.position.add d).distance_to cs.position
                  < z.position.distance_to cs.position) with
        | none => none
        | some bd =>
          some { action_type := .MOVE, actor_id := z.id,
                 target_position := some (z.position.add bd),
                 direction := some bd }

/-- Modelled from the spec: `GameState.spawn_zombie` is called from
`TurnManager.process_zombie_spawn` (src/core/turn_manager.py line 624) but
no definition of it exists under src/; only that caller does.  The spec says
the spawn phase "spawns a fixed small number of new zombies (policy: 1 per
round in the primary variant) at a designated spawn position", so this
appends one fresh living Zombie at the given position (with a fresh id and
the `Zombie.__init__` name scheme) and returns it alongside the new state. -/
def GameState.spawn_zombie (gs : GameState) (position : Position) :
    Zombie × GameState :=
  let zombie_id := "zombie_" ++ toString (gs.zombies.length + 1)
  let zombie : Zombie :=
    { id := zombie_id, name := "Zombie_" ++ zombie_id, position := position }
  (zombie, gs.add_zombie zombie)

/-! ## src/core/turn_order.py — TurnOrderManager -/

/-- `TurnOrderManager` state: a copied roster, the rotating first-player
index, the derived per-round order, a cursor into it, and the turn number. -/
structure TurnOrderManager where
  survivors : List Survivor
  first_player_index : Nat := 0
  current_turn_order : List Survivor := []
  current_survivor_index : Nat := 0
  turn_number : Nat := 1
deriving DecidableEq, Repr

/-- `_update_turn_order`: rotate the roster to start at the first player,
drop dead survivors, reset the cursor.  The early return on an empty roster
leaves the cursor untouched, as in the source. -/
def TurnOrderManager.update_turn_order (tom : TurnOrderManager) :
    TurnOrderManager :=
  if tom.survivors.isEmpty then { tom with current_turn_order := [] }
  else
    let rotated := tom.survivors.drop tom.first_player_index
      ++ tom.survivors.take tom.first_player_index
    { tom with current_turn_order := (rotated.filter (fun s => s.alive)),
               current_survivor_index := 0 }

/-- `TurnOrderManager.__init__`: copy the roster and build the first order. -/
def TurnOrderManager.create (survivors : List Survivor) : TurnOrderManager :=
  TurnOrderManager.update_turn_order
    { survivors := survivors, first_player_index := 0,
      current_turn_order := [], current_survivor_index := 0, turn_number := 1 }

/-- `get_current_survivor`: the survivor at the cursor, or `none` past the
end (or when the order is empty). -/
def TurnOrderManager.get_current_survivor (tom : TurnOrderManager) :
    Option Survivor :=
  tom.current_turn_order.get? tom.current_survivor_index

/-- `get_next_survivor`: advance the cursor, then read the new current. -/
def TurnOrderManager.get_next_survivor (tom : TurnOrderManager) :
    TurnOrderManager × Option Survivor :=
  let tom1 := { tom with
    current_survivor_index := tom.current_survivor_index + 1 }
  (tom1, tom1.get_current_survivor)

/-- `advance_turn`: rotate the first player by `(i + 1) % len(survivors)`,
bump the turn number, recompute the order.  The `%` raises
`ZeroDivisionError` when the roster is empty, modelled as `none`. -/
def TurnOrderManager.advance_turn (tom : TurnOrderManager) :
    Option TurnOrderManager :=
  if tom.survivors.length = 0 then none
  else
    some (TurnOrderManager.update_turn_order
      { tom with
        first_player_index := (tom.first_player_index + 1) % tom.survivors.length,
        turn_number := tom.turn_number + 1 })

/-- Iterated `advance_turn` (used for the rotation-cycle claim). -/
def TurnOrderManager.advance_iter :
    Nat → TurnOrderManager → Option TurnOrderManager
  | 0, tom => some tom
  | n + 1, tom =>
    match tom.advance_turn with
    | none => none
    | some t => TurnOrderManager.advance_iter n t

/-- `remove_dead_survivor`: drop the first matching roster entry, adjust the
first-player index the way the source does, recompute the order, and clamp
the cursor to the new order length. -/
def TurnOrderManager.remove_dead_survivor (tom : TurnOrderManager)
    (survivor : Survivor) : TurnOrderManager :=
  let tom1 :=
    if tom.survivors.contains survivor then
      let dead_index := tom.survivors.indexOf survivor
      let survivors' := tom.survivors.erase survivor
      let fpi :=
        if dead_index < tom.first_player_index then tom.first_player_index - 1
        else if dead_index == tom.first_player_index
            && tom.first_player_index ≥ survivors'.length then 0
        else tom.first_player_index
      { tom with survivors := survivors', first_player_index := fpi }
    else tom
  let tom2 := tom1.update_turn_order
  if tom2.current_survivor_index ≥ tom2.current_turn_order.length then
    { tom2 with current_survivor_index := tom2.current_turn_order.length }
  else tom2

/-! ## src/core/turn_manager.py — TurnManager phase machine

Only the state touched by `advance_phase`, `end_turn`,
`process_zombie_spawn` and `mark_phase_complete` is modelled; the pygame
event plumbing and the `on_phase_change` / `on_turn_change` callbacks
(`None` by default) are display-side and not part of any claim.  The
dynamically added attributes (`_current_game_state`,
`_survivor_turn_initialized`, `_zombie_turn_initialized`, `_zombie_index`)
are modelled as always-present fields holding their post-`hasattr` default.
-/

/-- `TurnPhase` enum. -/
inductive TurnPhase where
  | SURVIVOR_TURN
  | ZOMBIE_TURN
  | ZOMBIE_SPAWN
  | TURN_END
deriving DecidableEq, Repr

/-- `TurnManager` state (the subset reachable from the modelled methods). -/
structure TurnManager where
  current_phase : TurnPhase := .SURVIVOR_TURN
  turn_number : Nat := 1
  current_survivor_index : Nat := 0
  survivors_acted : List String := []
  phase_complete : Bool := false
  game_paused : Bool := false
  phase_timer : Nat := 0
  turn_order_manager : Option TurnOrderManager := none
  current_game_state : Option GameState := none
  survivor_turn_started : Bool := false
  zombie_turn_started : Bool := false
  zombie_index : Nat := 0
deriving DecidableEq, Repr

/-- `get_turn_number`: the turn order manager's number when present, else
the manager's own counter. -/
def TurnManager.get_turn_number (tm : TurnManager) : Nat :=
  match tm.turn_order_manager with
  | some tom => tom.turn_number
  | none => tm.turn_number

/-- `mark_phase_complete`: set the flag and clear the timer. -/
def TurnManager.mark_phase_complete (tm : TurnManager) : TurnManager :=
  { tm with phase_complete := true, phase_timer := 0 }

/-- `end_turn`: rotate the turn order (which can raise on an empty roster,
hence `Option`), reset the phase machine to SURVIVOR_TURN, restore every
living survivor's action budget in the stored game state, and clear the
phase-local bookkeeping. -/
def TurnManager.end_turn (tm : TurnManager) : Option TurnManager :=
  let afterRotate : Option TurnManager :=
    match tm.turn_order_manager with
    | some tom =>
      match tom.advance_turn with
      | none => none
      | some tom' =>
        some { tm with turn_order_manager := some tom',
                       turn_number := tom'.turn_number }
    | none => some { tm with turn_number := tm.turn_number + 1 }
  match afterRotate with
  | none => none
  | some tm1 =>
    some { tm1 with
      current_phase := .SURVIVOR_TURN,
      current_survivor_index := 0,
      survivors_acted := [],
      phase_complete := false,
      phase_timer := 0,
      current_game_state := (tm1.current_game_state.map (fun gs =>
        { gs with survivors := (gs.survivors.map (fun s =>
            if s.alive then { s with actions_remaining := s.max_actions }
            else s)) })),
      survivor_turn_started := false,
      zombie_turn_started := false,
      zombie_index := 0 }

/-- `advance_phase`: a no-op while paused; otherwise clear the completion
flag and timer and step the phase, `TURN_END` looping to a new turn via
`end_turn`. -/
def TurnManager.advance_phase (tm : TurnManager) : Option TurnManager :=
  if tm.game_paused then some tm
  else
    let tm1 := { tm with phase_complete := false, phase_timer := 0 }
    match tm.current_phase with
    | .SURVIVOR_TURN => some { tm1 with current_phase := .ZOMBIE_TURN }
    | .ZOMBIE_TURN => some { tm1 with current_phase := .ZOMBIE_SPAWN }
    | .ZOMBIE_SPAWN => some { tm1 with current_phase := .TURN_END }
    | .TURN_END => tm1.end_turn

/-- Four chained `advance_phase` calls (used for the cycle-closure claim). -/
def TurnManager.advance_phase4 (tm : TurnManager) : Option TurnManager :=
  (((tm.advance_phase.bind TurnManager.advance_phase).bind
    TurnManager.advance_phase).bind TurnManager.advance_phase)

/-- `process_zombie_spawn`: when the phase is not yet complete, spawn
`spawn_count = 1` zombie at the (2,2) spawn zone of the stored game state
(when one is stored) and mark the phase complete. -/
def TurnManager.process_zombie_spawn (tm : TurnManager) : TurnManager :=
  if tm.phase_complete then tm
  else
    let tm1 :=
      match tm.current_game_state with
      | some gs =>
        { tm with current_game_state :=
            (some (gs.spawn_zombie { row := 2, col := 2 }).2) }
      | none => tm
    tm1.mark_phase_complete

/-- Iterated `take_damage` (used for the wound-monotonicity claim): the
survivor after `n` successive `take_damage` calls. -/
def Survivor.take_damage_iter : Nat → Survivor → Survivor
  | 0, s => s
  | n + 1, s => Survivor.take_damage_iter n (s.take_damage).2

/-! ## Claim theorems -/

/-- `take_damage` increments the wound count by exactly one. -/
theorem take_damage_wounds (s : Survivor) :
    (s.take_damage).2.wounds = s.wounds + 1 := by
  by_cases h : s.wounds + 1 ≥ 2 <;> simp [Survivor.take_damage, h]

/-- `take_damage` sets `alive` to false at the death threshold and leaves it
untouched below it. -/
theorem take_damage_alive (s : Survivor) :
    (s.take_damage).2.alive = (if s.wounds + 1 ≥ 2 then false else s.alive) := by
  by_cases h : s.wounds + 1 ≥ 2 <;> simp [Survivor.take_damage, h]

/-- `take_damage` does not touch the action budget. -/
theorem take_damage_actions (s : Survivor) :
    (s.take_damage).2.actions_remaining = s.actions_remaining := by
  by_cases h : s.wounds + 1 ≥ 2 <;> simp [Survivor.take_damage, h]

/-- `take_damage` does not change the id. -/
theorem take_damage_id (s : Survivor) : (s.take_damage).2.id = s.id := by
  by_cases h : s.wounds + 1 ≥ 2 <;> simp [Survivor.take_damage, h]

/-- The `died` return value of `take_damage` is exactly "the new wound total
reached 2". -/
theorem take_damage_died (s : Survivor) :
    (s.take_damage).1 = decide (s.wounds + 1 ≥ 2) := by
  by_cases h : s.wounds + 1 ≥ 2 <;> simp [Survivor.take_damage, h]

/-- C5: for every Survivor and every sequence of `take_damage` calls, wounds
never decrease (they grow by exactly the number of calls), `alive` never
flips back to true, and for a survivor starting alive below the death
threshold, `alive` is true after `k` calls exactly while the wound total
stays below 2 — i.e. it flips to false exactly when wounds first reach 2. -/
theorem claim5_wound_monotonicity (s : Survivor) (k : Nat) :
    (Survivor.take_damage_iter k s).wounds = s.wounds + k ∧
    ((Survivor.take_damage_iter k s).alive = true → s.alive = true) ∧
    (s.alive = true → s.wounds < 2 →
      ((Survivor.take_damage_iter k s).alive = true ↔ s.wounds + k < 2)) := by
  induction k generalizing s with
  | zero =>
    refine ⟨rfl, fun h => h, fun ha hw => ?_⟩
    simpa [Survivor.take_damage_iter, ha] using hw
  | succ n ih =>
    have hstep : Survivor.take_damage_iter (n + 1) s
        = Survivor.take_damage_iter n (s.take_damage).2 := rfl
    obtain ⟨ih1, ih2, ih3⟩ := ih (s.take_damage).2
    rw [hstep]
    refine ⟨?_, ?_, ?_⟩
    · rw [ih1, take_damage_wounds]; omega
    · intro h
      have h2 := ih2 h
      rw [take_damage_alive] at h2
      by_cases hw : s.wounds + 1 ≥ 2
      · simp [hw] at h2
      · simpa [hw] using h2
    · intro ha hlt
      by_cases hw : s.wounds + 1 ≥ 2
      · have hR : ¬(s.wounds + (n + 1) < 2) := by omega
        constructor
        · intro h
          have h2 := ih2 h
          rw [take_damage_alive] at h2
          simp [hw] at h2
        · intro h; exact absurd h hR
      · have h3 := ih3
          (by rw [take_damage_alive]; simpa [hw] using ha)
          (by rw [take_damage_wounds]; omega)
        rw [h3, take_damage_wounds]
        omega

/-- Concrete input for the C5 witness: a fresh survivor with 0 wounds. -/
def witnessSurvivor : Survivor :=
  { id := "w", name := "Wanda", position := { row := 0, col := 0 } }

/-- C5 witness: instantiating the wound-monotonicity theorem at a concrete
survivor and two damage calls. -/
theorem claim5_wound_monotonicity_witness :
    (Survivor.take_damage_iter 2 witnessSurvivor).wounds
        = witnessSurvivor.wounds + 2 ∧
    ((Survivor.take_damage_iter 2 witnessSurvivor).alive = true ↔
      witnessSurvivor.wounds + 2 < 2) :=
  ⟨(claim5_wound_monotonicity witnessSurvivor 2).1,
    (claim5_wound_monotonicity witnessSurvivor 2).2.2 (by decide) (by decide)⟩

/-- Concrete state for C9: one survivor at (1,1) with a full action budget. -/
def c9_state : GameState :=
  { survivors :=
      [{ id := "s1", name := "Eva", position := { row := 1, col := 1 },
         actions_remaining := 3 }],
    zombies := [] }

/-- Concrete action for C9: a MOVE whose direction (UP) is legal from (1,1)
but whose separate `target_position` field is far outside the 3x3 grid. -/
def c9_action : Action :=
  { action_type := .MOVE, actor_id := "s1",
    target_position := some { row := 99, col := 99 },
    direction := some .UP }

/-- C9: `execute_action` validates a move only through the actor's position
plus the direction, then assigns the unchecked `target_position`; on this
concrete input the move succeeds and leaves the actor outside the grid, so
in-bounds positions are not an invariant preserved by `execute_action`. -/
theorem claim9_move_escapes_grid :
    ∃ r gs', c9_state.execute_action c9_action = some (r, gs') ∧
      r.success = true ∧
      ActionValidator.validate_move { row := 1, col := 1 } Direction.UP
        c9_state.grid_size = true ∧
      (gs'.get_entity_by_id "s1").map EntityRef.position
        = some { row := 99, col := 99 } ∧
      Position.is_valid { row := 99, col := 99 } c9_state.grid_size = false := by
  refine ⟨_, _, rfl, ?_, ?_, ?_, ?_⟩ <;> decide

/-- `_update_turn_order` never changes the backing roster. -/
theorem update_turn_order_survivors (tom : TurnOrderManager) :
    tom.update_turn_order.survivors = tom.survivors := by
  unfold TurnOrderManager.update_turn_order
  split <;> rfl

/-- `_update_turn_order` never changes the first-player index. -/
theorem update_turn_order_first (tom : TurnOrderManager) :
    tom.update_turn_order.first_player_index = tom.first_player_index := by
  unfold TurnOrderManager.update_turn_order
  split <;> rfl

/-- `_update_turn_order` never changes the turn number. -/
theorem update_turn_order_turn (tom : TurnOrderManager) :
    tom.update_turn_order.turn_number = tom.turn_number := by
  unfold TurnOrderManager.update_turn_order
  split <;> rfl

/-- `_update_turn_order` resets the cursor whenever the roster is
non-empty. -/
theorem update_turn_order_cursor (tom : TurnOrderManager)
    (h : tom.survivors ≠ []) :
    tom.update_turn_order.current_survivor_index = 0 := by
  unfold TurnOrderManager.update_turn_order
  rw [if_neg (by simpa [List.isEmpty_iff] using h)]

/-- `remove_dead_survivor` leaves exactly the roster with the first matching
entry erased. -/
theorem remove_dead_survivor_survivors (tom : TurnOrderManager)
    (s : Survivor) :
    (tom.remove_dead_survivor s).survivors
      = if tom.survivors.contains s then tom.survivors.erase s
        else tom.survivors := by
  unfold TurnOrderManager.remove_dead_survivor
  by_cases hc : tom.survivors.contains s <;>
    simp only [hc, if_true, if_false] <;>
    (repeat' split) <;> simp_all [update_turn_order_survivors]

/-- C10: `advance_turn` divides by the roster length, so it fails (raises
`ZeroDivisionError`, modelled as `none`) exactly on an empty roster, and
`remove_dead_survivor` can empty the roster (removing the last survivor
leaves it empty), after which `advance_turn` cannot return normally. -/
theorem claim10_advance_turn_empty_roster (tom : TurnOrderManager) :
    (tom.advance_turn = none ↔ tom.survivors = []) ∧
    (∀ s : Survivor, tom.survivors = [s] →
      ((tom.remove_dead_survivor s).survivors = [] ∧
        (tom.remove_dead_survivor s).advance_turn = none)) := by
  have hiff : ∀ t : TurnOrderManager, t.advance_turn = none ↔ t.survivors = [] := by
    intro t
    unfold TurnOrderManager.advance_turn
    constructor
    · intro h
      by_cases hlen : t.survivors.length = 0
      · exact List.length_eq_zero.mp hlen
      · simp [hlen] at h
    · intro h
      simp [h]
  refine ⟨hiff tom, fun s hs => ?_⟩
  have hrem : (tom.remove_dead_survivor s).survivors = [] := by
    rw [remove_dead_survivor_survivors, hs]
    simp
  exact ⟨hrem, (hiff _).mpr hrem⟩

/-- Concrete one-survivor turn order manager for the C10 witness. -/
def c10_tom : TurnOrderManager := TurnOrderManager.create [witnessSurvivor]

/-- C10 witness: on a concrete one-survivor manager, removing that survivor
empties the roster and makes `advance_turn` fail. -/
theorem claim10_advance_turn_empty_roster_witness :
    (c10_tom.remove_dead_survivor witnessSurvivor).survivors = [] ∧
    (c10_tom.remove_dead_survivor witnessSurvivor).advance_turn = none :=
  (claim10_advance_turn_empty_roster c10_tom).2 witnessSurvivor (by decide)

/-- On a non-empty roster, `advance_turn` returns normally, keeps the
roster, rotates the first-player index by one modulo the roster length,
increments the turn number, and resets the cursor. -/
theorem advance_turn_of_nonempty (tom : TurnOrderManager)
    (h : tom.survivors ≠ []) :
    ∃ t, tom.advance_turn = some t ∧
      t.survivors = tom.survivors ∧
      t.first_player_index
        = (tom.first_player_index + 1) % tom.survivors.length ∧
      t.turn_number = tom.turn_number + 1 ∧
      t.current_survivor_index = 0 := by
  have hlen : tom.survivors.length ≠ 0 := by
    simpa [List.length_eq_zero] using h
  refine ⟨_, by unfold TurnOrderManager.advance_turn; rw [if_neg hlen], ?_, ?_, ?_, ?_⟩
  · rw [update_turn_order_survivors]
  · rw [update_turn_order_first]
  · rw [update_turn_order_turn]
  · exact update_turn_order_cursor _ (by simpa using h)

/-- Iterating `advance_turn` `k` times from a non-empty roster with an
in-range first-player index succeeds, keeps the roster, adds `k` to the
turn number, and advances the first-player index by `k` modulo the roster
length. -/
theorem advance_iter_spec (k : Nat) (tom : TurnOrderManager)
    (h : tom.survivors ≠ [])
    (hidx : tom.first_player_index < tom.survivors.length) :
    ∃ t, TurnOrderManager.advance_iter k tom = some t ∧
      t.survivors = tom.survivors ∧
      t.first_player_index
        = (tom.first_player_index + k) % tom.survivors.length ∧
      t.turn_number = tom.turn_number + k := by
  induction k generalizing tom with
  | zero =>
    exact ⟨tom, rfl, rfl, (Nat.mod_eq_of_lt hidx).symm, rfl⟩
  | succ n ih =>
    obtain ⟨t1, h1, hsurv, hfirst, hturn, _⟩ := advance_turn_of_nonempty tom h
    obtain ⟨t, ht, htsurv, htfirst, htturn⟩ := ih t1
      (by rw [hsurv]; exact h)
      (by rw [hfirst, hsurv]
          exact Nat.mod_lt _ (by simpa [List.length_pos] using h))
    refine ⟨t, ?_, by rw [htsurv, hsurv], ?_, by omega⟩
    · unfold TurnOrderManager.advance_iter
      rw [h1]
      exact ht
    · rw [htfirst, hsurv, hfirst, Nat.mod_add_mod]
      congr 1
      omega

/-- C7: each `advance_turn` on a roster of `N` survivors (none removed in
between) rotates `first_player_index` to `(first_player_index + 1) mod N`,
increments the turn number by 1 and resets the cursor to 0; and `N`
consecutive `advance_turn` calls return `first_player_index` to its
original value. -/
theorem claim7_turn_rotation (tom : TurnOrderManager) (N : Nat)
    (hN : tom.survivors.length = N) (hpos : 0 < N)
    (hidx : tom.first_player_index < N) :
    (∃ t1, tom.advance_turn = some t1 ∧
      t1.first_player_index = (tom.first_player_index + 1) % N ∧
      t1.turn_number = tom.turn_number + 1 ∧
      t1.current_survivor_index = 0) ∧
    (∃ tN, TurnOrderManager.advance_iter N tom = some tN ∧
      tN.first_player_index = tom.first_player_index) := by
  have hne : tom.survivors ≠ [] := by
    intro hnil
    rw [hnil] at hN
    simp at hN
    omega
  constructor
  · obtain ⟨t1, h1, hsurv, hfirst, hturn, hcur⟩ := advance_turn_of_nonempty tom hne
    exact ⟨t1, h1, by rw [hfirst, hN], hturn, hcur⟩
  · obtain ⟨tN, hiter, _, hfirst, _⟩ := advance_iter_spec N tom hne (by omega)
    refine ⟨tN, hiter, ?_⟩
    rw [hfirst, hN, Nat.add_mod_right, Nat.mod_eq_of_lt hidx]

/-- Second concrete survivor for the C7 witness roster. -/
def witnessSurvivor2 : Survivor :=
  { id := "w2", name := "Josh", position := { row := 2, col := 2 } }

/-- Concrete two-survivor turn order manager for the C7 witness. -/
def c7_tom : TurnOrderManager :=
  TurnOrderManager.create [witnessSurvivor, witnessSurvivor2]

/-- C7 witness: instantiating the rotation theorem on a concrete
two-survivor manager. -/
theorem claim7_turn_rotation_witness :
    (∃ t1, c7_tom.advance_turn = some t1 ∧
      t1.first_player_index = (c7_tom.first_player_index + 1) % 2 ∧
      t1.turn_number = c7_tom.turn_number + 1 ∧
      t1.current_survivor_index = 0) ∧
    (∃ tN, TurnOrderManager.advance_iter 2 c7_tom = some tN ∧
      tN.first_player_index = c7_tom.first_player_index) :=
  claim7_turn_rotation c7_tom 2 (by decide) (by decide) (by decide)

/-- C1: with a stored game state and the phase not yet complete,
`process_zombie_spawn` appends exactly one new living zombie at the
designated spawn position (2,2), leaves the survivors untouched, and marks
the phase complete.  (`GameState.spawn_zombie` itself is modelled from the
spec, its definition being absent from src/.) -/
theorem claim1_zombie_spawn (tm : TurnManager) (gs : GameState)
    (hgs : tm.current_game_state = some gs)
    (hpc : tm.phase_complete = false) :
    ∃ z gs', tm.process_zombie_spawn.current_game_state = some gs' ∧
      gs'.zombies = gs.zombies ++ [z] ∧
      z.position = { row := 2, col := 2 } ∧
      z.alive = true ∧
      gs'.survivors = gs.survivors ∧
      tm.process_zombie_spawn.phase_complete = true := by
  unfold TurnManager.process_zombie_spawn
  rw [hpc]
  simp only [Bool.false_eq_true, if_false, hgs]
  exact ⟨_, _, rfl, rfl, rfl, rfl, rfl, rfl⟩

/-- Concrete turn manager for the C1 witness: spawn phase pending on the
C9 game state. -/
def c1_tm : TurnManager :=
  { current_phase := .ZOMBIE_SPAWN, current_game_state := some c9_state }

/-- C1 witness: instantiating the spawn theorem on a concrete manager. -/
theorem claim1_zombie_spawn_witness :
    ∃ z gs', c1_tm.process_zombie_spawn.current_game_state = some gs' ∧
      gs'.zombies = c9_state.zombies ++ [z] ∧
      z.position = { row := 2, col := 2 } ∧
      z.alive = true ∧
      gs'.survivors = c9_state.survivors ∧
      c1_tm.process_zombie_spawn.phase_complete = true :=
  claim1_zombie_spawn c1_tm c9_state rfl rfl

/-- `end_turn` returns normally whenever the turn order manager is absent
or has a non-empty roster; it resets the phase to SURVIVOR_TURN, increments
the displayed turn number by one, and leaves the pause flag alone. -/
theorem end_turn_spec (tm : TurnManager)
    (htom : ∀ tom, tm.turn_order_manager = some tom → tom.survivors ≠ []) :
    ∃ tm', tm.end_turn = some tm' ∧
      tm'.current_phase = .SURVIVOR_TURN ∧
      tm'.get_turn_number = tm.get_turn_number + 1 ∧
      tm'.game_paused = tm.game_paused := by
  cases hc : tm.turn_order_manager with
  | none =>
    simp only [TurnManager.end_turn, hc]
    refine ⟨_, rfl, rfl, ?_, rfl⟩
    simp [TurnManager.get_turn_number, hc]
  | some tom =>
    obtain ⟨tom', h1, _, _, hturn, _⟩ :=
      advance_turn_of_nonempty tom (htom tom hc)
    simp only [TurnManager.end_turn, hc, h1]
    refine ⟨_, rfl, rfl, ?_, rfl⟩
    simp [TurnManager.get_turn_number, hc, hturn]

/-- The state `advance_phase` builds before dispatching: completion flag and
timer cleared, phase set. -/
def TurnManager.with_phase (tm : TurnManager) (ph : TurnPhase) : TurnManager :=
  { tm with phase_complete := false, phase_timer := 0, current_phase := ph }

/-- `advance_phase` from SURVIVOR_TURN (unpaused): step to ZOMBIE_TURN. -/
theorem advance_phase_from_survivor (tm : TurnManager)
    (hp : tm.game_paused = false) (h : tm.current_phase = .SURVIVOR_TURN) :
    tm.advance_phase = some (tm.with_phase .ZOMBIE_TURN) := by
  simp [TurnManager.advance_phase, TurnManager.with_phase, hp, h]

/-- `advance_phase` from ZOMBIE_TURN (unpaused): step to ZOMBIE_SPAWN. -/
theorem advance_phase_from_zombie (tm : TurnManager)
    (hp : tm.game_paused = false) (h : tm.current_phase = .ZOMBIE_TURN) :
    tm.advance_phase = some (tm.with_phase .ZOMBIE_SPAWN) := by
  simp [TurnManager.advance_phase, TurnManager.with_phase, hp, h]

/-- `advance_phase` from ZOMBIE_SPAWN (unpaused): step to TURN_END. -/
theorem advance_phase_from_spawn (tm : TurnManager)
    (hp : tm.game_paused = false) (h : tm.current_phase = .ZOMBIE_SPAWN) :
    tm.advance_phase = some (tm.with_phase .TURN_END) := by
  simp [TurnManager.advance_phase, TurnManager.with_phase, hp, h]

/-- `advance_phase` from TURN_END (unpaused): run `end_turn` on the state
with the completion flag and timer cleared. -/
theorem advance_phase_from_turn_end (tm : TurnManager)
    (hp : tm.game_paused = false) (h : tm.current_phase = .TURN_END) :
    tm.advance_phase
      = TurnManager.end_turn { tm with phase_complete := false, phase_timer := 0 } := by
  simp [TurnManager.advance_phase, hp, h]

/-- C8: while paused, `advance_phase` changes nothing; unpaused from
SURVIVOR_TURN (with a usable turn order roster), exactly four
`advance_phase` calls traverse ZOMBIE_TURN, ZOMBIE_SPAWN and TURN_END and
come back to SURVIVOR_TURN with the displayed round number incremented by
one. -/
theorem claim8_phase_cycle (tm : TurnManager) :
    (tm.game_paused = true → tm.advance_phase = some tm) ∧
    (tm.game_paused = false → tm.current_phase = .SURVIVOR_TURN →
      (∀ tom, tm.turn_order_manager = some tom → tom.survivors ≠ []) →
      ∃ tm1 tm2 tm3 tm4,
        tm.advance_phase = some tm1 ∧ tm1.current_phase = .ZOMBIE_TURN ∧
        tm1.advance_phase = some tm2 ∧ tm2.current_phase = .ZOMBIE_SPAWN ∧
        tm2.advance_phase = some tm3 ∧ tm3.current_phase = .TURN_END ∧
        tm3.advance_phase = some tm4 ∧ tm4.current_phase = .SURVIVOR_TURN ∧
        tm.advance_phase4 = some tm4 ∧
        tm4.get_turn_number = tm.get_turn_number + 1) := by
  constructor
  · intro hp
    simp [TurnManager.advance_phase, hp]
  · intro hp hph htom
    have h1 := advance_phase_from_survivor tm hp hph
    have h2 := advance_phase_from_zombie (tm.with_phase .ZOMBIE_TURN) hp rfl
    have h3 := advance_phase_from_spawn (tm.with_phase .ZOMBIE_SPAWN) hp rfl
    obtain ⟨tm4, hend, hph4, hturn4, _⟩ :=
      end_turn_spec (tm.with_phase .TURN_END) htom
    have h4 : (tm.with_phase .TURN_END).advance_phase = some tm4 := by
      rw [advance_phase_from_turn_end (tm.with_phase .TURN_END) hp rfl]
      exact hend
    have hww : ∀ (t : TurnManager) ph1 ph2,
        (t.with_phase ph1).with_phase ph2 = t.with_phase ph2 := fun _ _ _ => rfl
    rw [hww] at h2 h3
    refine ⟨tm.with_phase .ZOMBIE_TURN, tm.with_phase .ZOMBIE_SPAWN,
      tm.with_phase .TURN_END, tm4, h1, rfl, h2, rfl, h3, rfl, h4, hph4, ?_,
      hturn4⟩
    unfold TurnManager.advance_phase4
    rw [h1, Option.some_bind, h2, Option.some_bind, h3, Option.some_bind, h4]

/-- Concrete unpaused manager (no turn order manager yet) for the C8
witness. -/
def c8_tm : TurnManager := { current_game_state := some c9_state }

/-- Concrete paused manager for the C8 witness. -/
def c8_tm_paused : TurnManager := { game_paused := true }

/-- C8 witness: the paused clause on a concrete paused manager and the
four-step cycle on a concrete unpaused manager in SURVIVOR_TURN. -/
theorem claim8_phase_cycle_witness :
    (c8_tm_paused.advance_phase = some c8_tm_paused) ∧
    (∃ tm1 tm2 tm3 tm4,
      c8_tm.advance_phase = some tm1 ∧ tm1.current_phase = .ZOMBIE_TURN ∧
      tm1.advance_phase = some tm2 ∧ tm2.current_phase = .ZOMBIE_SPAWN ∧
      tm2.advance_phase = some tm3 ∧ tm3.current_phase = .TURN_END ∧
      tm3.advance_phase = some tm4 ∧ tm4.current_phase = .SURVIVOR_TURN ∧
      c8_tm.advance_phase4 = some tm4 ∧
      tm4.get_turn_number = c8_tm.get_turn_number + 1) :=
  ⟨(claim8_phase_cycle c8_tm_paused).1 rfl,
    (claim8_phase_cycle c8_tm).2 rfl rfl (fun tom h => by cases h)⟩

/-! ## Lookup/update machinery for the action-execution claims -/

/-- Apply the survivor/zombie update functions through an `EntityRef`. -/
def EntityRef.apply (fs : Survivor → Survivor) (fz : Zombie → Zombie) :
    EntityRef → EntityRef
  | .surv s => .surv (fs s)
  | .zomb z => .zomb (fz z)

/-- Updating the first id-match does not disturb an id-preserving lookup of
the same id beyond applying the function. -/
theorem find?_updateFirstSurvivor_self (l : List Survivor) (i : String)
    (f : Survivor → Survivor) (hf : ∀ s, (f s).id = s.id) :
    (updateFirstSurvivor l i f).find? (fun s => s.id == i)
      = (l.find? (fun s => s.id == i)).map f := by
  induction l with
  | nil => rfl
  | cons s rest ih =>
    by_cases h : s.id == i
    · simp [updateFirstSurvivor, List.find?, h, hf]
    · simp [updateFirstSurvivor, List.find?, h, ih]

/-- Updating the first match of one id leaves lookups of any other id
untouched. -/
theorem find?_updateFirstSurvivor_ne (l : List Survivor) (i j : String)
    (f : Survivor → Survivor) (hf : ∀ s, (f s).id = s.id) (hij : i ≠ j) :
    (updateFirstSurvivor l i f).find? (fun s => s.id == j)
      = l.find? (fun s => s.id == j) := by
  induction l with
  | nil => rfl
  | cons s rest ih =>
    by_cases h : s.id == i
    · have hsid : s.id = i := by simpa using h
      have hne : (i == j) = false := by simpa using hij
      simp [updateFirstSurvivor, List.find?, h, hf, hsid, hij, hne]
    · by_cases hj : s.id == j
      · simp [updateFirstSurvivor, List.find?, h, hj]
      · simp [updateFirstSurvivor, List.find?, h, hj, ih]

/-- Zombie version of `find?_updateFirstSurvivor_self`. -/
theorem find?_updateFirstZombie_self (l : List Zombie) (i : String)
    (f : Zombie → Zombie) (hf : ∀ z, (f z).id = z.id) :
    (updateFirstZombie l i f).find? (fun z => z.id == i)
      = (l.find? (fun z => z.id == i)).map f := by
  induction l with
  | nil => rfl
  | cons z rest ih =>
    by_cases h : z.id == i
    · simp [updateFirstZombie, List.find?, h, hf]
    · simp [updateFirstZombie, List.find?, h, ih]

/-- Zombie version of `find?_updateFirstSurvivor_ne`. -/
theorem find?_updateFirstZombie_ne (l : List Zombie) (i j : String)
    (f : Zombie → Zombie) (hf : ∀ z, (f z).id = z.id) (hij : i ≠ j) :
    (updateFirstZombie l i f).find? (fun z => z.id == j)
      = l.find? (fun z => z.id == j) := by
  induction l with
  | nil => rfl
  | cons z rest ih =>
    by_cases h : z.id == i
    · have hzid : z.id = i := by simpa using h
      have hne : (i == j) = false := by simpa using hij
      simp [updateFirstZombie, List.find?, h, hf, hzid, hij, hne]
    · by_cases hj : z.id == j
      · simp [updateFirstZombie, List.find?, h, hj]
      · simp [updateFirstZombie, List.find?, h, hj, ih]

/-- `consume_action` keeps the survivor's id. -/
theorem surv_consume_action_id (s : Survivor) :
    (s.consume_action).id = s.id := by
  unfold Survivor.consume_action
  split <;> rfl

/-- `consume_action` keeps the zombie's id. -/
theorem zomb_consume_action_id (z : Zombie) :
    (z.consume_action).id = z.id := by
  unfold Zombie.consume_action
  split <;> rfl

/-- `consume_action` decrements the survivor's budget by one (saturating at
zero, where the source leaves it untouched). -/
theorem surv_consume_action_actions (s : Survivor) :
    (s.consume_action).actions_remaining = s.actions_remaining - 1 := by
  unfold Survivor.consume_action
  split
  · rfl
  · omega

/-- `consume_action` decrements the zombie's budget by one (saturating at
zero, where the source leaves it untouched). -/
theorem zomb_consume_action_actions (z : Zombie) :
    (z.consume_action).actions_remaining = z.actions_remaining - 1 := by
  unfold Zombie.consume_action
  split
  · rfl
  · omega

/-- `any` over an id predicate agrees with `find?` producing a result. -/
theorem any_eq_isSome_find?_surv (l : List Survivor) (i : String) :
    l.any (fun s => s.id == i) = (l.find? (fun s => s.id == i)).isSome := by
  induction l with
  | nil => rfl
  | cons s rest ih =>
    by_cases h : s.id == i <;> simp [List.find?, h, ih]

/-- When a survivor matches the id, `update_entity` touches the survivor
list only. -/
theorem update_entity_surv_branch (gs : GameState) (i : String)
    (fs : Survivor → Survivor) (fz : Zombie → Zombie)
    (h : gs.survivors.any (fun s => s.id == i) = true) :
    gs.update_entity i fs fz
      = { gs with survivors := (updateFirstSurvivor gs.survivors i fs) } := by
  unfold GameState.update_entity
  rw [if_pos h]

/-- When no survivor matches the id, `update_entity` touches the zombie
list only. -/
theorem update_entity_zomb_branch (gs : GameState) (i : String)
    (fs : Survivor → Survivor) (fz : Zombie → Zombie)
    (h : gs.survivors.any (fun s => s.id == i) = false) :
    gs.update_entity i fs fz
      = { gs with zombies := (updateFirstZombie gs.zombies i fz) } := by
  unfold GameState.update_entity
  rw [if_neg (by simp [h])]

/-- Looking up the updated id yields the updated entity. -/
theorem get_update_self (gs : GameState) (i : String)
    (fs : Survivor → Survivor) (fz : Zombie → Zombie)
    (hfs : ∀ s, (fs s).id = s.id) (hfz : ∀ z, (fz z).id = z.id) :
    (gs.update_entity i fs fz).get_entity_by_id i
      = (gs.get_entity_by_id i).map (EntityRef.apply fs fz) := by
  by_cases h : gs.survivors.any (fun s => s.id == i)
  · rw [update_entity_surv_branch gs i fs fz h]
    unfold GameState.get_entity_by_id
    simp only
    rw [find?_updateFirstSurvivor_self _ _ _ hfs]
    have hsome : (gs.survivors.find? (fun s => s.id == i)).isSome := by
      rw [← any_eq_isSome_find?_surv]
      exact h
    cases hfind : gs.survivors.find? (fun s => s.id == i) with
    | none => rw [hfind] at hsome; simp at hsome
    | some s => simp [hfind, EntityRef.apply]
  · have h' : gs.survivors.any (fun s => s.id == i) = false := by
      simpa using h
    rw [update_entity_zomb_branch gs i fs fz h']
    unfold GameState.get_entity_by_id
    simp only
    have hnone : gs.survivors.find? (fun s => s.id == i) = none := by
      rw [any_eq_isSome_find?_surv] at h'
      cases hfind : gs.survivors.find? (fun s => s.id == i) with
      | none => rfl
      | some s => rw [hfind] at h'; simp at h'
    rw [hnone, find?_updateFirstZombie_self _ _ _ hfz]
    cases hfind : gs.zombies.find? (fun z => z.id == i) with
    | none => simp
    | some z => simp [EntityRef.apply]

/-- Looking up a different id is unaffected by the update. -/
theorem get_update_ne (gs : GameState) (i j : String)
    (fs : Survivor → Survivor) (fz : Zombie → Zombie)
    (hfs : ∀ s, (fs s).id = s.id) (hfz : ∀ z, (fz z).id = z.id)
    (hij : i ≠ j) :
    (gs.update_entity i fs fz).get_entity_by_id j
      = gs.get_entity_by_id j := by
  by_cases h : gs.survivors.any (fun s => s.id == i)
  · rw [update_entity_surv_branch gs i fs fz h]
    unfold GameState.get_entity_by_id
    simp only
    rw [find?_updateFirstSurvivor_ne _ _ _ _ hfs hij]
  · have h' : gs.survivors.any (fun s => s.id == i) = false := by
      simpa using h
    rw [update_entity_zomb_branch gs i fs fz h']
    unfold GameState.get_entity_by_id
    simp only
    rw [find?_updateFirstZombie_ne _ _ _ _ hfz hij]

/-- `consume_action` keeps the survivor's wounds. -/
theorem surv_consume_action_wounds (s : Survivor) :
    (s.consume_action).wounds = s.wounds := by
  unfold Survivor.consume_action
  split <;> rfl

/-- `consume_action` keeps the survivor's `alive` flag. -/
theorem surv_consume_action_alive (s : Survivor) :
    (s.consume_action).alive = s.alive := by
  unfold Survivor.consume_action
  split <;> rfl

/-- `consume_action` keeps the zombie's `alive` flag. -/
theorem zomb_consume_action_alive (z : Zombie) :
    (z.consume_action).alive = z.alive := by
  unfold Zombie.consume_action
  split <;> rfl

/-- A lookup that answers with a survivor pins down the survivor-list scan
and forces the id to match. -/
theorem get_surv_elim (gs : GameState) (tid : String) (s : Survivor)
    (h : gs.get_entity_by_id tid = some (.surv s)) :
    gs.survivors.find? (fun x => x.id == tid) = some s ∧ s.id = tid := by
  unfold GameState.get_entity_by_id at h
  cases hfind : gs.survivors.find? (fun x => x.id == tid) with
  | some s' =>
    rw [hfind] at h
    simp only [Option.some.injEq, EntityRef.surv.injEq] at h
    subst h
    exact ⟨rfl, by simpa using List.find?_some hfind⟩
  | none =>
    rw [hfind] at h
    cases hz : gs.zombies.find? (fun x => x.id == tid) <;> rw [hz] at h <;>
      cases h

/-- A lookup that answers with a zombie means no survivor matched and the
zombie-list scan found it, with a matching id. -/
theorem get_zomb_elim (gs : GameState) (tid : String) (z : Zombie)
    (h : gs.get_entity_by_id tid = some (.zomb z)) :
    gs.survivors.find? (fun x => x.id == tid) = none ∧
      gs.zombies.find? (fun x => x.id == tid) = some z ∧ z.id = tid := by
  unfold GameState.get_entity_by_id at h
  cases hfind : gs.survivors.find? (fun x => x.id == tid) with
  | some s' => rw [hfind] at h; cases h
  | none =>
    rw [hfind] at h
    cases hz : gs.zombies.find? (fun x => x.id == tid) with
    | none => rw [hz] at h; cases h
    | some z' =>
      rw [hz] at h
      simp only [Option.some.injEq, EntityRef.zomb.injEq] at h
      subst h
      exact ⟨rfl, rfl, by simpa using List.find?_some hz⟩

/-- Case analysis on a `_execute_move` call that returned: either a failure
leaving the state alone, or a success writing `target_position` into the
actor and consuming one action point. -/
theorem execute_move_shape (gs : GameState) (actor : EntityRef) (a : Action)
    (r : ActionResult) (gs' : GameState)
    (h : gs.execute_move actor a = some (r, gs')) :
    (r.success = false ∧ gs' = gs) ∨
    (r.success = true ∧ ∃ tp, a.target_position = some tp ∧
      gs' = gs.update_entity a.actor_id
        (fun s => Survivor.consume_action { s with position := tp })
        (fun z => Zombie.consume_action { z with position := tp })) := by
  unfold GameState.execute_move at h
  cases hdir : a.direction with
  | none => simp [hdir] at h
  | some dir =>
    simp only [hdir] at h
    by_cases hv : ActionValidator.validate_move actor.position dir gs.grid_size
    · rw [if_neg (by simpa using hv)] at h
      cases htp : a.target_position with
      | none => simp [htp] at h
      | some tp =>
        simp only [htp, Option.some.injEq, Prod.mk.injEq] at h
        obtain ⟨hr, hg⟩ := h
        exact Or.inr ⟨by rw [← hr], tp, rfl, hg.symm⟩
    · rw [if_pos (by simpa using hv)] at h
      simp only [Option.some.injEq, Prod.mk.injEq] at h
      obtain ⟨hr, hg⟩ := h
      exact Or.inl ⟨by rw [← hr], hg.symm⟩

/-- Case analysis on a `_execute_attack` call that returned: either a
failure leaving the state alone, or a success that consumes the attacker's
action point and then wounds a survivor target or kills a zombie target,
with the corresponding effect tags. -/
theorem execute_attack_shape (gs : GameState) (actor : EntityRef)
    (a : Action) (r : ActionResult) (gs' : GameState)
    (h : gs.execute_attack actor a = some (r, gs')) :
    (r.success = false ∧ gs' = gs) ∨
    (r.success = true ∧ ∃ tid target, a.target_id = some tid ∧
      gs.get_entity_by_id tid = some target ∧
      ActionValidator.validate_attack actor.position target.position = true ∧
      ((∃ s, target = EntityRef.surv s ∧
          gs' = { gs.consume_entity_action a.actor_id with survivors :=
            (updateFirstSurvivor (gs.consume_entity_action a.actor_id).survivors
              s.id (fun t => (t.take_damage).2)) } ∧
          r.effects = ((if (s.take_damage).1 then ["entity_died:" ++ s.id]
            else []) ++ ["damage_taken:" ++ s.id ++ ":1"])) ∨
       (∃ z, target = EntityRef.zomb z ∧
          gs' = { gs.consume_entity_action a.actor_id with zombies :=
            (updateFirstZombie (gs.consume_entity_action a.actor_id).zombies
              z.id (fun t => { t with alive := false })) } ∧
          r.effects = ["entity_died:" ++ z.id]))) := by
  unfold GameState.execute_attack at h
  cases htid : a.target_id with
  | none =>
    simp only [htid, Option.some.injEq, Prod.mk.injEq] at h
    obtain ⟨hr, hg⟩ := h
    exact Or.inl ⟨by rw [← hr], hg.symm⟩
  | some tid =>
    simp only [htid] at h
    cases hget : gs.get_entity_by_id tid with
    | none =>
      simp only [hget, Option.some.injEq, Prod.mk.injEq] at h
      obtain ⟨hr, hg⟩ := h
      exact Or.inl ⟨by rw [← hr], hg.symm⟩
    | some target =>
      simp only [hget] at h
      by_cases hval :
          ActionValidator.validate_attack actor.position target.position
      · rw [if_neg (by simpa using hval)] at h
        cases htk : target with
        | surv s =>
          simp only [htk, Option.some.injEq, Prod.mk.injEq] at h
          obtain ⟨hr, hg⟩ := h
          refine Or.inr ⟨by rw [← hr], tid, target, rfl, hget,
            by rw [htk] at hval ⊢; simpa using hval, ?_⟩
          exact Or.inl ⟨s, htk, hg.symm, by rw [← hr]⟩
        | zomb z =>
          simp only [htk, Option.some.injEq, Prod.mk.injEq] at h
          obtain ⟨hr, hg⟩ := h
          refine Or.inr ⟨by rw [← hr], tid, target, rfl, hget,
            by rw [htk] at hval ⊢; simpa using hval, ?_⟩
          exact Or.inr ⟨z, htk, hg.symm, by rw [← hr]⟩
      · rw [if_pos (by simpa using hval)] at h
        simp only [Option.some.injEq, Prod.mk.injEq] at h
        obtain ⟨hr, hg⟩ := h
        exact Or.inl ⟨by rw [← hr], hg.symm⟩

/-- Looking up the consumed id applies `consume_action` to the lookup
result. -/
theorem get_consume_self (gs : GameState) (i : String) :
    (gs.consume_entity_action i).get_entity_by_id i
      = (gs.get_entity_by_id i).map
          (EntityRef.apply Survivor.consume_action Zombie.consume_action) := by
  unfold GameState.consume_entity_action
  exact get_update_self gs i _ _ surv_consume_action_id
    zomb_consume_action_id

/-- Consuming one entity's action point does not disturb other lookups. -/
theorem get_consume_ne (gs : GameState) (i j : String) (hij : i ≠ j) :
    (gs.consume_entity_action i).get_entity_by_id j
      = gs.get_entity_by_id j := by
  unfold GameState.consume_entity_action
  exact get_update_ne gs i j _ _ surv_consume_action_id
    zomb_consume_action_id hij

/-- Consuming through an `EntityRef` decrements the budget by one. -/
theorem apply_consume_actions (e : EntityRef) :
    (EntityRef.apply Survivor.consume_action Zombie.consume_action
        e).actions_remaining = e.actions_remaining - 1 := by
  cases e <;> simp [EntityRef.apply, EntityRef.actions_remaining,
    surv_consume_action_actions, zomb_consume_action_actions]

/-- Full description of the state after a successful `_execute_attack`: the
attacker's budget drops by one, a survivor target gains exactly one wound
(dying at the threshold, with the matching effect tags), a zombie target is
killed outright with an `entity_died` tag. -/
theorem attack_success_master (gs : GameState) (a : Action)
    (r : ActionResult) (gs' : GameState) (actor : EntityRef)
    (hactor : gs.get_entity_by_id a.actor_id = some actor)
    (h : gs.execute_attack actor a = some (r, gs'))
    (hr : r.success = true) :
    ∃ tid target, a.target_id = some tid ∧
      gs.get_entity_by_id tid = some target ∧
      (∃ e', gs'.get_entity_by_id a.actor_id = some e' ∧
        e'.actions_remaining = actor.actions_remaining - 1) ∧
      (∀ s, target = EntityRef.surv s →
        ∃ s', gs'.get_entity_by_id tid = some (.surv s') ∧
          s'.wounds = s.wounds + 1 ∧
          s'.alive = (if s.wounds + 1 ≥ 2 then false else s.alive) ∧
          (s.wounds + 1 ≥ 2 → ("entity_died:" ++ tid) ∈ r.effects) ∧
          ("damage_taken:" ++ tid ++ ":1") ∈ r.effects) ∧
      (∀ z, target = EntityRef.zomb z →
        ∃ z', gs'.get_entity_by_id tid = some (.zomb z') ∧
          z'.alive = false ∧ ("entity_died:" ++ tid) ∈ r.effects) := by
  rcases execute_attack_shape gs actor a r gs' h with ⟨hf, _⟩ |
    ⟨_, tid, target, htid, htarget, hval, hcase⟩
  · rw [hf] at hr; cases hr
  · refine ⟨tid, target, htid, htarget, ?_⟩
    have hdmg_id : ∀ t : Survivor, ((t.take_damage).2).id = t.id :=
      take_damage_id
    rcases hcase with ⟨s, hts, hg, hfx⟩ | ⟨z, htz, hg, hfx⟩
    · subst hts
      obtain ⟨hfindS, hsid⟩ := get_surv_elim gs tid s htarget
      by_cases hia : a.actor_id = tid
      · subst hia
        have hae : actor = .surv s := by
          rw [hactor] at htarget
          exact Option.some.inj htarget
        have hget1 : (gs.consume_entity_action a.actor_id).get_entity_by_id
            a.actor_id = some (.surv s.consume_action) := by
          rw [get_consume_self, htarget]; rfl
        obtain ⟨hfind1, _⟩ := get_surv_elim _ _ _ hget1
        have hany : ((gs.consume_entity_action a.actor_id).survivors.any
            (fun x => x.id == a.actor_id)) = true := by
          rw [any_eq_isSome_find?_surv, hfind1]; rfl
        have hupd : gs' = (gs.consume_entity_action a.actor_id).update_entity
            a.actor_id (fun t => (t.take_damage).2) (fun zz => zz) := by
          rw [hg, hsid, update_entity_surv_branch _ _ _ _ hany]
        have hget' : gs'.get_entity_by_id a.actor_id
            = some (.surv ((s.consume_action.take_damage)).2) := by
          rw [hupd, get_update_self _ _ _ _ hdmg_id (fun zz => rfl), hget1]
          rfl
        refine ⟨⟨_, hget', ?_⟩, ?_, ?_⟩
        · rw [hae]
          simp [EntityRef.actions_remaining, take_damage_actions,
            surv_consume_action_actions]
        · intro s0 hs0
          obtain rfl : s = s0 := by injection hs0
          refine ⟨_, hget', ?_, ?_, ?_, ?_⟩
          · rw [take_damage_wounds, surv_consume_action_wounds]
          · rw [take_damage_alive, surv_consume_action_wounds,
              surv_consume_action_alive]
          · intro hw
            rw [hfx, take_damage_died]
            simp [hw, hsid]
          · rw [hfx]
            simp [hsid]
        · intro z0 hz0
          cases hz0
      · have hget1t : (gs.consume_entity_action a.actor_id).get_entity_by_id
            tid = some (.surv s) := by
          rw [get_consume_ne gs a.actor_id tid hia, htarget]
        obtain ⟨hfind1, _⟩ := get_surv_elim _ _ _ hget1t
        have hany : ((gs.consume_entity_action a.actor_id).survivors.any
            (fun x => x.id == tid)) = true := by
          rw [any_eq_isSome_find?_surv, hfind1]; rfl
        have hupd : gs' = (gs.consume_entity_action a.actor_id).update_entity
            tid (fun t => (t.take_damage).2) (fun zz => zz) := by
          rw [hg, hsid, update_entity_surv_branch _ _ _ _ hany]
        have hget' : gs'.get_entity_by_id tid
            = some (.surv ((s.take_damage).2)) := by
          rw [hupd, get_update_self _ _ _ _ hdmg_id (fun zz => rfl), hget1t]
          rfl
        have hgetA : gs'.get_entity_by_id a.actor_id
            = some (EntityRef.apply Survivor.consume_action
                Zombie.consume_action actor) := by
          rw [hupd, get_update_ne _ tid a.actor_id _ _ hdmg_id (fun zz => rfl)
            (fun hh => hia hh.symm), get_consume_self, hactor]
          rfl
        refine ⟨⟨_, hgetA, apply_consume_actions actor⟩, ?_, ?_⟩
        · intro s0 hs0
          obtain rfl : s = s0 := by injection hs0
          refine ⟨_, hget', take_damage_wounds s, take_damage_alive s, ?_, ?_⟩
          · intro hw
            rw [hfx, take_damage_died]
            simp [hw, hsid]
          · rw [hfx]
            simp [hsid]
        · intro z0 hz0
          cases hz0
    · subst htz
      obtain ⟨hfnone, hfz, hzid⟩ := get_zomb_elim gs tid z htarget
      by_cases hia : a.actor_id = tid
      · subst hia
        have hae : actor = .zomb z := by
          rw [hactor] at htarget
          exact Option.some.inj htarget
        have hget1 : (gs.consume_entity_action a.actor_id).get_entity_by_id
            a.actor_id = some (.zomb z.consume_action) := by
          rw [get_consume_self, htarget]; rfl
        obtain ⟨hf1none, hf1z, _⟩ := get_zomb_elim _ _ _ hget1
        have hanyf : ((gs.consume_entity_action a.actor_id).survivors.any
            (fun x => x.id == a.actor_id)) = false := by
          rw [any_eq_isSome_find?_surv, hf1none]; rfl
        have hupd : gs' = (gs.consume_entity_action a.actor_id).update_entity
            a.actor_id (fun t => t)
            (fun t => { t with alive := false }) := by
          rw [hg, hzid, update_entity_zomb_branch _ _ _ _ hanyf]
        have hget' : gs'.get_entity_by_id a.actor_id
            = some (.zomb { z.consume_action with alive := false }) := by
          rw [hupd, get_update_self _ _ (fun t => t)
            (fun t => { t with alive := false }) (fun t => rfl) (fun t => rfl),
            hget1]
          rfl
        refine ⟨⟨_, hget', ?_⟩, ?_, ?_⟩
        · rw [hae]
          simp [EntityRef.actions_remaining, zomb_consume_action_actions]
        · intro s0 hs0
          cases hs0
        · intro z0 hz0
          obtain rfl : z = z0 := by injection hz0
          refine ⟨_, hget', rfl, ?_⟩
          rw [hfx]
          simp [hzid]
      · have hget1t : (gs.consume_entity_action a.actor_id).get_entity_by_id
            tid = some (.zomb z) := by
          rw [get_consume_ne gs a.actor_id tid hia, htarget]
        obtain ⟨hf1none, hf1z, _⟩ := get_zomb_elim _ _ _ hget1t
        have hanyf : ((gs.consume_entity_action a.actor_id).survivors.any
            (fun x => x.id == tid)) = false := by
          rw [any_eq_isSome_find?_surv, hf1none]; rfl
        have hupd : gs' = (gs.consume_entity_action a.actor_id).update_entity
            tid (fun t => t) (fun t => { t with alive := false }) := by
          rw [hg, hzid, update_entity_zomb_branch _ _ _ _ hanyf]
        have hget' : gs'.get_entity_by_id tid
            = some (.zomb { z with alive := false }) := by
          rw [hupd, get_update_self _ _ (fun t => t)
            (fun t => { t with alive := false }) (fun t => rfl) (fun t => rfl),
            hget1t]
          rfl
        have hgetA : gs'.get_entity_by_id a.actor_id
            = some (EntityRef.apply Survivor.consume_action
                Zombie.consume_action actor) := by
          rw [hupd, get_update_ne _ tid a.actor_id (fun t => t)
            (fun t => { t with alive := false }) (fun t => rfl)
            (fun t => rfl) (fun hh => hia hh.symm), get_consume_self, hactor]
          rfl
        refine ⟨⟨_, hgetA, apply_consume_actions actor⟩, ?_, ?_⟩
        · intro s0 hs0
          cases hs0
        · intro z0 hz0
          obtain rfl : z = z0 := by injection hz0
          refine ⟨_, hget', rfl, ?_⟩
          rw [hfx]
          simp [hzid]

/-- C2: when `execute_action` returns a failed result (missing actor, actor
unable to act, invalid move, missing target, or not co-located) the state is
returned unchanged; when it returns a successful result the actor had a
positive budget and its `actions_remaining` drops by exactly one. -/
theorem claim2_action_point_conservation (gs : GameState) (a : Action)
    (r : ActionResult) (gs' : GameState)
    (h : gs.execute_action a = some (r, gs')) :
    (r.success = false → gs' = gs) ∧
    (r.success = true → ∃ e e',
      gs.get_entity_by_id a.actor_id = some e ∧
      gs'.get_entity_by_id a.actor_id = some e' ∧
      e.actions_remaining > 0 ∧
      e'.actions_remaining + 1 = e.actions_remaining) := by
  unfold GameState.execute_action at h
  cases hactor : gs.get_entity_by_id a.actor_id with
  | none =>
    simp only [hactor, Option.some.injEq, Prod.mk.injEq] at h
    obtain ⟨hrr, hg⟩ := h
    refine ⟨fun _ => hg.symm, fun hs => ?_⟩
    rw [← hrr] at hs
    cases hs
  | some actor =>
    simp only [hactor] at h
    by_cases hact : actor.can_act
    · rw [if_neg (by simpa using hact)] at h
      have hpos : actor.actions_remaining > 0 := by
        unfold EntityRef.can_act at hact
        simp only [Bool.and_eq_true, decide_eq_true_eq] at hact
        exact hact.2
      cases hty : a.action_type with
      | MOVE =>
        rw [hty] at h
        rcases execute_move_shape gs actor a r gs' h with
          ⟨hrr, hg⟩ | ⟨hrr, tp, htp, hg⟩
        · refine ⟨fun _ => hg, fun hs => ?_⟩
          rw [hrr] at hs
          cases hs
        · refine ⟨fun hf => ?_, fun _ => ?_⟩
          · rw [hrr] at hf
            cases hf
          have hres : gs'.get_entity_by_id a.actor_id
              = some (EntityRef.apply
                (fun s => Survivor.consume_action { s with position := tp })
                (fun z => Zombie.consume_action { z with position := tp })
                actor) := by
            rw [hg, get_update_self _ _
              (fun s => Survivor.consume_action { s with position := tp })
              (fun z => Zombie.consume_action { z with position := tp })
              (fun s => surv_consume_action_id _)
              (fun z => zomb_consume_action_id _), hactor]
            rfl
          refine ⟨actor, _, rfl, hres, hpos, ?_⟩
          · cases actor with
            | surv s =>
              simp only [EntityRef.actions_remaining] at hpos
              simp only [EntityRef.apply, EntityRef.actions_remaining,
                surv_consume_action_actions]
              omega
            | zomb z =>
              simp only [EntityRef.actions_remaining] at hpos
              simp only [EntityRef.apply, EntityRef.actions_remaining,
                zomb_consume_action_actions]
              omega
      | ATTACK =>
        rw [hty] at h
        rcases execute_attack_shape gs actor a r gs' h with
          ⟨hrr, hg⟩ | ⟨hrr, _, _, _, _, _, _⟩
        · refine ⟨fun _ => hg, fun hs => ?_⟩
          rw [hrr] at hs
          cases hs
        · refine ⟨fun hf => ?_, fun _ => ?_⟩
          · rw [hrr] at hf
            cases hf
          obtain ⟨tid, target, htid, htarget, ⟨e', hge', hear⟩, _, _⟩ :=
            attack_success_master gs a r gs' actor hactor h hrr
          refine ⟨actor, e', rfl, hge', hpos, ?_⟩
          rw [hear]
          omega
    · rw [if_pos (by simpa using hact)] at h
      simp only [Option.some.injEq, Prod.mk.injEq] at h
      obtain ⟨hrr, hg⟩ := h
      refine ⟨fun _ => hg.symm, fun hs => ?_⟩
      rw [← hrr] at hs
      cases hs

/-- Concrete failing action for the C2 witness: the actor id matches no
entity. -/
def c2_action : Action :=
  { action_type := .MOVE, actor_id := "ghost", direction := some .UP,
    target_position := some { row := 0, col := 0 } }

/-- Results of the two concrete C2 executions (failing and succeeding). -/
def c2_run : ActionResult × GameState :=
  (c9_state.execute_action c2_action).getD
    (⟨false, "", []⟩, { survivors := [], zombies := [] })

/-- The concrete successful C2 execution: the C9 move by survivor s1. -/
def c2_run_ok : ActionResult × GameState :=
  (c9_state.execute_action c9_action).getD
    (⟨false, "", []⟩, { survivors := [], zombies := [] })

/-- C2 witness: on the concrete failing action the state is unchanged, and
on the concrete successful action the actor's budget drops by one. -/
theorem claim2_action_point_conservation_witness :
    c2_run.2 = c9_state ∧
    (∃ e e', c9_state.get_entity_by_id "s1" = some e ∧
      (c2_run_ok.2).get_entity_by_id "s1" = some e' ∧
      e.actions_remaining > 0 ∧
      e'.actions_remaining + 1 = e.actions_remaining) :=
  ⟨(claim2_action_point_conservation c9_state c2_action c2_run.1 c2_run.2
      rfl).1 rfl,
    (claim2_action_point_conservation c9_state c9_action c2_run_ok.1
      c2_run_ok.2 rfl).2 rfl⟩

/-- C3: every attack that `execute_action` resolves successfully names a
target that was found by id; a Survivor target gains exactly one wound
(with death exactly at the 2-wound threshold and the matching effect tags),
and a Zombie target has its `alive` flag set to false with an
`entity_died` effect, regardless of its prior state. -/
theorem claim3_attack_resolution (gs : GameState) (a : Action)
    (r : ActionResult) (gs' : GameState)
    (h : gs.execute_action a = some (r, gs'))
    (hty : a.action_type = .ATTACK) (hs : r.success = true) :
    ∃ tid target, a.target_id = some tid ∧
      gs.get_entity_by_id tid = some target ∧
      (∀ s, target = EntityRef.surv s →
        ∃ s', gs'.get_entity_by_id tid = some (.surv s') ∧
          s'.wounds = s.wounds + 1 ∧
          s'.alive = (if s.wounds + 1 ≥ 2 then false else s.alive) ∧
          (s.wounds + 1 ≥ 2 → ("entity_died:" ++ tid) ∈ r.effects) ∧
          ("damage_taken:" ++ tid ++ ":1") ∈ r.effects) ∧
      (∀ z, target = EntityRef.zomb z → z.alive = true →
        ∃ z', gs'.get_entity_by_id tid = some (.zomb z') ∧
          z'.alive = false ∧ ("entity_died:" ++ tid) ∈ r.effects) := by
  unfold GameState.execute_action at h
  cases hactor : gs.get_entity_by_id a.actor_id with
  | none =>
    simp only [hactor, Option.some.injEq, Prod.mk.injEq] at h
    rw [← h.1] at hs
    cases hs
  | some actor =>
    simp only [hactor] at h
    by_cases hact : actor.can_act
    · rw [if_neg (by simpa using hact), hty] at h
      obtain ⟨tid, target, htid, htarget, _, hsurv, hzomb⟩ :=
        attack_success_master gs a r gs' actor hactor h hs
      exact ⟨tid, target, htid, htarget, hsurv,
        fun z hz _ => hzomb z hz⟩
    · rw [if_pos (by simpa using hact)] at h
      simp only [Option.some.injEq, Prod.mk.injEq] at h
      rw [← h.1] at hs
      cases hs

/-- The survivor of the concrete C3/C4 scenarios. -/
def c3_survivor : Survivor :=
  { id := "s1", name := "Eva", position := { row := 1, col := 1 },
    actions_remaining := 3 }

/-- Concrete state for the C3/C4 scenarios: a survivor with a full budget
co-located with one living and one dead zombie. -/
def c3_state : GameState :=
  { survivors := [c3_survivor],
    zombies :=
      [{ id := "zLive", name := "Zombie_zLive",
         position := { row := 1, col := 1 }, actions_remaining := 1 },
       { id := "zDead", name := "Zombie_zDead",
         position := { row := 1, col := 1 }, alive := false }] }

/-- Concrete attack on the living zombie for the C3 witness. -/
def c3_action : Action :=
  { action_type := .ATTACK, actor_id := "s1",
    target_position := some { row := 1, col := 1 }, target_id := some "zLive" }

/-- The concrete C3 execution. -/
def c3_run : ActionResult × GameState :=
  (c3_state.execute_action c3_action).getD
    (⟨false, "", []⟩, { survivors := [], zombies := [] })

/-- C3 witness: instantiating the attack-resolution theorem on the concrete
survivor-kills-zombie scenario. -/
theorem claim3_attack_resolution_witness :
    ∃ tid target, c3_action.target_id = some tid ∧
      c3_state.get_entity_by_id tid = some target ∧
      (∀ s, target = EntityRef.surv s →
        ∃ s', (c3_run.2).get_entity_by_id tid = some (.surv s') ∧
          s'.wounds = s.wounds + 1 ∧
          s'.alive = (if s.wounds + 1 ≥ 2 then false else s.alive) ∧
          (s.wounds + 1 ≥ 2 → ("entity_died:" ++ tid) ∈ c3_run.1.effects) ∧
          ("damage_taken:" ++ tid ++ ":1") ∈ c3_run.1.effects) ∧
      (∀ z, target = EntityRef.zomb z → z.alive = true →
        ∃ z', (c3_run.2).get_entity_by_id tid = some (.zomb z') ∧
          z'.alive = false ∧ ("entity_died:" ++ tid) ∈ c3_run.1.effects) :=
  claim3_attack_resolution c3_state c3_action c3_run.1 c3_run.2 rfl rfl rfl

/-- Concrete attack naming the dead zombie (for C4). -/
def c4_action : Action :=
  { action_type := .ATTACK, actor_id := "s1",
    target_position := some { row := 1, col := 1 }, target_id := some "zDead" }

/-- C4 counterexample: the claim says a dead entity is not a valid attack
target, but on this concrete input the attack against the dead co-located
zombie returns success (the source resolves targets by id with no
aliveness check). -/
theorem claim4_counterexample :
    ∃ r gs', c3_state.execute_action c4_action = some (r, gs') ∧
      (∃ z, c3_state.get_entity_by_id "zDead" = some (.zomb z) ∧
        z.alive = false) ∧
      r.success = true := by
  refine ⟨_, _, rfl, ⟨_, rfl, rfl⟩, rfl⟩

/-- C4 (amended): `get_entities_at_position` never includes a dead entity,
but `execute_action` resolves attack targets by id without checking
aliveness, so an attack naming a dead co-located entity succeeds. -/
theorem claim4_dead_entities_amended :
    (∀ (gs : GameState) (p : Position) (e : EntityRef),
        e ∈ gs.get_entities_at_position p → e.alive = true) ∧
    (∃ r gs', c3_state.execute_action c4_action = some (r, gs') ∧
      r.success = true ∧
      (∃ z, c3_state.get_entity_by_id "zDead" = some (.zomb z) ∧
        z.alive = false)) := by
  constructor
  · intro gs p e he
    unfold GameState.get_entities_at_position at he
    rw [List.mem_append] at he
    rcases he with he | he <;>
      obtain ⟨x, hx, rfl⟩ := List.mem_map.mp he <;>
      obtain ⟨-, hp⟩ := List.mem_filter.mp hx <;>
      simp only [Bool.and_eq_true] at hp <;>
      exact hp.2
  · exact ⟨_, _, rfl, rfl, _, rfl, rfl⟩

/-- C4 amended-theorem witness: instantiating the occupancy clause on a
concrete state (the living survivor at (1,1) is listed and alive). -/
theorem claim4_dead_entities_amended_witness :
    (EntityRef.surv c3_survivor).alive = true :=
  claim4_dead_entities_amended.1 c3_state { row := 1, col := 1 } _ (by decide)

/-- One grid step changes the Manhattan distance to a fixed point by
exactly one, up or down. -/
theorem distance_step (p q : Position) (d : Direction) :
    (p.add d).distance_to q = p.distance_to q + 1 ∨
      (p.add d).distance_to q + 1 = p.distance_to q := by
  cases d <;>
    simp only [Position.add, Position.distance_to, Direction.get_offset] <;>
    omega

/-- A strict-improvement fold whose running best is already a lower bound
for every remaining legal candidate never changes its accumulator. -/
theorem foldl_best_stay (legal : Direction → Bool) (dist : Direction → Nat)
    (dirs : List Direction) (b : Option Direction × Nat)
    (hlow : ∀ d ∈ dirs, legal d = true → b.2 ≤ dist d) :
    dirs.foldl
      (fun acc dir => if legal dir then
        (if dist dir < acc.2 then (some dir, dist dir) else acc) else acc)
      b = b := by
  induction dirs with
  | nil => rfl
  | cons d rest ih =>
    simp only [List.foldl]
    by_cases hl : legal d = true
    · rw [if_pos hl,
        if_neg (by have := hlow d (List.mem_cons_self d rest) hl; omega)]
      exact ih (fun d' hd' hl' => hlow d' (List.mem_cons_of_mem d hd') hl')
    · rw [if_neg hl]
      exact ih (fun d' hd' hl' => hlow d' (List.mem_cons_of_mem d hd') hl')

/-- When every legal candidate's distance is one off the seed distance `D`
(the grid-step property), the strict-improvement fold seeded with `D`
returns exactly the first legal strictly-improving candidate. -/
theorem foldl_best_eq_find_first (legal : Direction → Bool)
    (dist : Direction → Nat) (D : Nat) (dirs : List Direction)
    (hD : ∀ d ∈ dirs, legal d = true → dist d + 1 = D ∨ dist d = D + 1) :
    (dirs.foldl
      (fun acc dir => if legal dir then
        (if dist dir < acc.2 then (some dir, dist dir) else acc) else acc)
      ((none : Option Direction), D)).1
      = dirs.find? (fun d => legal d && decide (dist d < D)) := by
  induction dirs with
  | nil => rfl
  | cons d rest ih =>
    simp only [List.foldl, List.find?]
    by_cases hl : legal d = true
    · by_cases hlt : dist d < D
      · rw [if_pos hl, if_pos hlt]
        have hdd : dist d + 1 = D := by
          rcases hD d (List.mem_cons_self d rest) hl with h | h
          · exact h
          · omega
        rw [foldl_best_stay legal dist rest (some d, dist d) ?_]
        · simp [hl, hlt]
        · intro d' hd' hl'
          rcases hD d' (List.mem_cons_of_mem d hd') hl' with h | h <;> omega
      · rw [if_pos hl, if_neg hlt]
        rw [ih (fun d' hd' hl' => hD d' (List.mem_cons_of_mem d hd') hl')]
        simp [hl, hlt]
    · rw [if_neg hl]
      rw [ih (fun d' hd' hl' => hD d' (List.mem_cons_of_mem d hd') hl')]
      simp [hl]

/-- The `best_direction` loop of the source picks exactly the first legal
direction (in enumeration order) whose destination strictly reduces the
Manhattan distance to the target: every legal step moves the distance by
exactly one, so the strict-improvement argmin degenerates to
first-improving. -/
theorem best_direction_eq (z : Zombie) (target : Position) :
    (z.best_direction target).1
      = Direction.members.find? (fun d =>
          ActionValidator.validate_move z.position d &&
            decide ((z.position.add d).distance_to target
              < z.position.distance_to target)) := by
  unfold Zombie.best_direction
  exact foldl_best_eq_find_first
    (fun d => ActionValidator.validate_move z.position d)
    (fun d => (z.position.add d).distance_to target)
    (z.position.distance_to target)
    Direction.members
    (fun d _ _ => (distance_step z.position target d).symm)

/-- C6: `Zombie.decide_action` agrees with the specification's description:
none when `can_act()` fails; otherwise attack the first living co-located
survivor; otherwise move in the first direction (enumeration order UP,
DOWN, LEFT, RIGHT) whose legal destination strictly reduces the Manhattan
distance to the closest living survivor (closest by current distance, ties
by insertion order); otherwise none. -/
theorem claim6_zombie_decision (z : Zombie) (gs : GameState) :
    z.decide_action gs = z.decide_action_first_improving gs := by
  unfold Zombie.decide_action Zombie.decide_action_first_improving
  simp only [best_direction_eq]

end Zombicide
